import Mathlib

/-!
Shallow embedding of the clibri websocket transport client
(`src/index.ts`, class `Connection`).  The mutable fields of the controller
(`_socket`, `_connected`, `_pending`, `_timeout`, `_options.reconnect`) become a
`State` record; each method and each of the four socket event handlers becomes a
Lean function from `State` to `State` together with a list of observable
outputs (promise settlements, subject emissions, transport I/O).  Transport
notifications carry the identifier of the socket they come from; a notification
whose identifier differs from the currently held socket is not delivered,
modelling the `removeEventListener` calls performed by `_close` before the
socket handle is dropped.
-/

namespace Clibri

/-- Modelled from the spec: the repository file `src/options.ts` (types
`IConnectionOptions` / `ConnectionOptions`, imported by `src/index.ts`) is not
under `src/`.  The spec describes the construction-time configuration as
`autoconnect : bool (default false)` and a reconnect delay integer where `0 or
negative disables reconnect` and the default is implementation-defined and
positive. -/
structure ConnectionOptions where
  autoconnect : Bool
  reconnect : Int
deriving DecidableEq, Repr

/-- Modelled from the spec: optional construction options as accepted by the
constructor; missing fields fall back to the defaults described in the spec
(`autoconnect` defaults to `false`, the reconnect delay to an
implementation-defined positive value, represented here by `5000`). -/
structure IConnectionOptions where
  autoconnect : Option Bool
  reconnect : Option Int
deriving DecidableEq, Repr

/-- Modelled from the spec: applying the defaults (`new ConnectionOptions`). -/
def ConnectionOptions.make (o : Option IConnectionOptions) : ConnectionOptions :=
  match o with
  | none => ⟨false, 5000⟩
  | some i => ⟨i.autoconnect.getD false, i.reconnect.getD 5000⟩

/-- Payload of a `message` notification: `event.data` in the handler is either
a string, a single binary buffer (`Buffer`/`ArrayBuffer`), or an array of
buffers. Bytes are modelled as `List Nat`. -/
inductive MsgData where
  | text (s : String)
  | binary (b : List Nat)
  | fragmented (bs : List (List Nat))
deriving DecidableEq, Repr

/-- Observable outputs of a step: settlements of the pending connect promise,
emissions on the four subjects, transport I/O (`socket.send`,
`socket.close`), and the `fault` marker for the `throw` in `_open`. -/
inductive Out where
  | resolvedP (pid : Nat)
  | rejectedP (pid : Nat)
  | connectedEv
  | disconnectedEv
  | errorEv
  | dataEv (bytes : List Nat)
  | sent (sid : Nat) (bytes : List Nat)
  | closedSock (sid : Nat)
  | fault
deriving DecidableEq, Repr

/-- Events driving the controller: the public operations and the transport /
timer notifications.  Notifications name the socket instance they belong to. -/
inductive Ev where
  | connect
  | disconnect
  | destroy
  | send (buf : List Nat)
  | openN (sid : Nat)
  | closeN (sid : Nat)
  | errorN (sid : Nat)
  | messageN (sid : Nat) (d : MsgData)
  | timerFire
deriving DecidableEq, Repr

/-- Immediate result of a `connect()` call: a synchronously rejected promise
(`Connection is already requested` / `Already connected`) or a fresh pending
promise identified by `pid`. -/
inductive ConnectResult where
  | rejectedAlreadyPending
  | rejectedAlreadyConnected
  | started (pid : Nat)
deriving DecidableEq, Repr

/-- Return value of `send`: an `Error` value (client is not connected) or
`undefined`. -/
inductive SendResult where
  | notConnected
  | ok
deriving DecidableEq, Repr

/-- Mutable state of a `Connection` instance.  `socket` holds the identifier
of the current `WebSocket` (if any), `pending` the identifier of the live
pending-connect promise (if any), `timer` whether a reconnect timeout is
armed, `reconnect` the current value of `_options.reconnect` (mutated to `-1`
by `_drop`).  `nextSid` / `nextPid` allocate fresh identifiers.  `address` and
`autoconnect` record the construction-time configuration. -/
structure State where
  socket : Option Nat
  connected : Bool
  pending : Option Nat
  timer : Bool
  reconnect : Int
  nextSid : Nat
  nextPid : Nat
  address : String
  autoconnect : Bool
deriving DecidableEq, Repr

/-- Embeds `_reconnect`: returns early when `reconnect <= 0`, otherwise clears
and re-arms the timeout. -/
def reconnectStep (s : State) : State :=
  if s.reconnect ≤ 0 then s
  else { s with timer := true }

/-- Embeds `_drop`: sets `_options.reconnect = -1` and clears the timeout. -/
def dropStep (s : State) : State :=
  { s with reconnect := -1, timer := false }

/-- Embeds `_open`: throws (here: emits `Out.fault`) when a socket already
exists, otherwise allocates a fresh socket and registers the four listeners. -/
def openSock (s : State) : State × List Out :=
  match s.socket with
  | some _ => (s, [Out.fault])
  | none => ({ s with socket := some s.nextSid, nextSid := s.nextSid + 1 }, [])

/-- Embeds `_close`: when a socket exists, unregisters the four listeners,
calls `socket.close()` and drops the handle; in all cases ends by calling
`_reconnect`. -/
def closeSock (s : State) : State × List Out :=
  match s.socket with
  | some sid => (reconnectStep { s with socket := none }, [Out.closedSock sid])
  | none => (reconnectStep s, [])

/-- Embeds `connect()`: first `clearTimeout(this._timeout)`, then the two
reject checks, then installation of the pending resolver/rejector pair and
`_open()`. -/
def connectStep (s : State) : ConnectResult × State × List Out :=
  if s.pending.isSome then
    (ConnectResult.rejectedAlreadyPending, { s with timer := false }, [])
  else if s.connected || s.socket.isSome then
    (ConnectResult.rejectedAlreadyConnected, { s with timer := false }, [])
  else
    (ConnectResult.started s.nextPid,
     (openSock { s with timer := false, pending := some s.nextPid,
                        nextPid := s.nextPid + 1 }).1,
     (openSock { s with timer := false, pending := some s.nextPid,
                        nextPid := s.nextPid + 1 }).2)

/-- Embeds `disconnect()`: `_drop(); _close()`. -/
def disconnectStep (s : State) : State × List Out :=
  closeSock (dropStep s)

/-- Embeds `destroy()`: `_drop(); _close(); _pending = undefined` and subject
teardown. -/
def destroyStep (s : State) : State × List Out :=
  ({ (closeSock (dropStep s)).1 with pending := none },
   (closeSock (dropStep s)).2)

/-- Embeds `send(buffer)`: returns an error when `!_connected || _socket ===
undefined`, otherwise forwards the buffer to the socket. -/
def sendStep (s : State) (buf : List Nat) : SendResult × List Out :=
  match s.socket, s.connected with
  | some sid, true => (SendResult.ok, [Out.sent sid buf])
  | some _, false => (SendResult.notConnected, [])
  | none, _ => (SendResult.notConnected, [])

/-- Embeds the `open` handler: set `_connected`, resolve and clear the pending
promise if present, then emit on the `connected` subject. -/
def onOpen (s : State) : State × List Out :=
  let s1 := { s with connected := true }
  match s1.pending with
  | some pid => ({ s1 with pending := none }, [Out.resolvedP pid, Out.connectedEv])
  | none => (s1, [Out.connectedEv])

/-- Embeds the `close` handler: clear `_connected`, run `_close()`, then emit
on the `disconnected` subject. -/
def onClose (s : State) : State × List Out :=
  ((closeSock { s with connected := false }).1,
   (closeSock { s with connected := false }).2 ++ [Out.disconnectedEv])

/-- Embeds the `message` handler: a string payload emits one `error`; a single
buffer emits one `data` with those bytes; an array of buffers emits one `data`
with their concatenation (`Buffer.concat`). -/
def onMessage (s : State) (d : MsgData) : State × List Out :=
  match d with
  | MsgData.text _ => (s, [Out.errorEv])
  | MsgData.binary b => (s, [Out.dataEv b])
  | MsgData.fragmented bs => (s, [Out.dataEv bs.flatten])

/-- Embeds the `error` handler: clear `_connected`, reject and clear the
pending promise if present, emit on the `error` subject, then run `_close()`. -/
def onError (s : State) : State × List Out :=
  match s.pending with
  | some pid =>
      ((closeSock { s with connected := false, pending := none }).1,
       Out.rejectedP pid :: Out.errorEv ::
         (closeSock { s with connected := false, pending := none }).2)
  | none =>
      ((closeSock { s with connected := false }).1,
       Out.errorEv :: (closeSock { s with connected := false }).2)

/-- One step of the controller: a public operation, a delivered transport
notification (delivered only when its socket identifier matches the currently
registered socket), or the reconnect timeout firing (which consumes the armed
timer and calls `_open`). -/
def step (s : State) (e : Ev) : State × List Out :=
  match e with
  | Ev.connect => (connectStep s).2
  | Ev.disconnect => disconnectStep s
  | Ev.destroy => destroyStep s
  | Ev.send buf => (s, (sendStep s buf).2)
  | Ev.openN sid => if s.socket = some sid then onOpen s else (s, [])
  | Ev.closeN sid => if s.socket = some sid then onClose s else (s, [])
  | Ev.errorN sid => if s.socket = some sid then onError s else (s, [])
  | Ev.messageN sid d => if s.socket = some sid then onMessage s d else (s, [])
  | Ev.timerFire => if s.timer then openSock { s with timer := false } else (s, [])

/-- Field initialisers of the constructor, before the optional `autoconnect`
call. -/
def initState (addr : String) (opts : ConnectionOptions) : State :=
  { socket := none, connected := false, pending := none, timer := false,
    reconnect := opts.reconnect, nextSid := 0, nextPid := 0,
    address := addr, autoconnect := opts.autoconnect }

/-- Embeds the constructor: field initialisation followed by `connect()` when
`options.autoconnect` is set. -/
def construct (addr : String) (opts : ConnectionOptions) : State × List Out :=
  if opts.autoconnect then (connectStep (initState addr opts)).2
  else (initState addr opts, [])

/-- Runs a list of events from a state, concatenating the outputs. -/
def run (s : State) : List Ev → State × List Out
  | [] => (s, [])
  | e :: evs =>
      ((run (step s e).1 evs).1, (step s e).2 ++ (run (step s e).1 evs).2)

/-- Constructs an instance and runs a list of events on it. -/
def exec (addr : String) (opts : ConnectionOptions) (evs : List Ev) :
    State × List Out :=
  ((run (construct addr opts).1 evs).1,
   (construct addr opts).2 ++ (run (construct addr opts).1 evs).2)

/-- Sample address used by concrete witness and counterexample traces. -/
def demoAddr : String := "addr"

/-- Recognises a settlement (resolution or rejection) of promise `p`. -/
def isSettleOf (p : Nat) : Out → Bool
  | Out.resolvedP q => q == p
  | Out.rejectedP q => q == p
  | _ => false

/-- Number of settlements of promise `p` in an output trace. -/
def settleCount (outs : List Out) (p : Nat) : Nat :=
  outs.countP (isSettleOf p)

/-- Traces that never call `destroy()`. -/
def NoDestroy (evs : List Ev) : Prop := Ev.destroy ∉ evs

instance : DecidablePred NoDestroy := fun evs =>
  inferInstanceAs (Decidable (Ev.destroy ∉ evs))

/-- Whether a trace contains a `disconnect()` or `destroy()` call (the two
callers of `_drop`). -/
def hasDrop (evs : List Ev) : Bool :=
  evs.any fun e =>
    match e with
    | Ev.disconnect => true
    | Ev.destroy => true
    | _ => false

/-! ### Equation lemmas for the embedded operations -/

theorem reconnectStep_fst (s : State) :
    reconnectStep s =
      { s with timer := if s.reconnect ≤ 0 then s.timer else true } := by
  obtain ⟨sock, conn, pend, tim, rec, nsid, npid, addr, auto⟩ := s
  by_cases hr : rec ≤ 0 <;> simp [reconnectStep, hr]

theorem closeSock_fst (s : State) :
    (closeSock s).1 =
      { s with socket := none,
               timer := if s.reconnect ≤ 0 then s.timer else true } := by
  obtain ⟨sock, conn, pend, tim, rec, nsid, npid, addr, auto⟩ := s
  cases sock <;> by_cases hr : rec ≤ 0 <;> simp [closeSock, reconnectStep, hr]

theorem closeSock_snd (s : State) :
    (closeSock s).2 = s.socket.elim [] (fun sid => [Out.closedSock sid]) := by
  obtain ⟨sock, conn, pend, tim, rec, nsid, npid, addr, auto⟩ := s
  cases sock <;> simp [closeSock, reconnectStep]

theorem openSock_of_none (s : State) (h : s.socket = none) :
    openSock s =
      ({ s with socket := some s.nextSid, nextSid := s.nextSid + 1 }, []) := by
  obtain ⟨sock, conn, pend, tim, rec, nsid, npid, addr, auto⟩ := s
  simp only at h
  subst h
  simp [openSock]

theorem openSock_of_some (s : State) (sid : Nat) (h : s.socket = some sid) :
    openSock s = (s, [Out.fault]) := by
  obtain ⟨sock, conn, pend, tim, rec, nsid, npid, addr, auto⟩ := s
  simp only at h
  subst h
  simp [openSock]

theorem connectStep_of_pending (s : State) (h : s.pending.isSome) :
    connectStep s =
      (ConnectResult.rejectedAlreadyPending, { s with timer := false }, []) := by
  simp [connectStep, h]

theorem connectStep_of_busy (s : State) (h1 : s.pending = none)
    (h2 : s.connected = true ∨ s.socket.isSome) :
    connectStep s =
      (ConnectResult.rejectedAlreadyConnected, { s with timer := false }, []) := by
  rcases h2 with h2 | h2 <;> simp [connectStep, h1, h2]

theorem connectStep_of_free (s : State) (h1 : s.pending = none)
    (h2 : s.connected = false) (h3 : s.socket = none) :
    connectStep s =
      (ConnectResult.started s.nextPid,
       { s with timer := false, pending := some s.nextPid,
                nextPid := s.nextPid + 1, socket := some s.nextSid,
                nextSid := s.nextSid + 1 }, []) := by
  obtain ⟨sock, conn, pend, tim, rec, nsid, npid, addr, auto⟩ := s
  simp only at h1 h2 h3
  subst h1; subst h2; subst h3
  simp [connectStep, openSock]

theorem onOpen_of_pending (s : State) (pid : Nat) (h : s.pending = some pid) :
    onOpen s = ({ s with connected := true, pending := none },
                [Out.resolvedP pid, Out.connectedEv]) := by
  simp [onOpen, h]

theorem onOpen_of_none (s : State) (h : s.pending = none) :
    onOpen s = ({ s with connected := true }, [Out.connectedEv]) := by
  simp [onOpen, h]

theorem onError_of_pending (s : State) (pid : Nat) (h : s.pending = some pid) :
    onError s =
      ((closeSock { s with connected := false, pending := none }).1,
       Out.rejectedP pid :: Out.errorEv ::
         (closeSock { s with connected := false, pending := none }).2) := by
  simp [onError, h]

theorem onError_of_none (s : State) (h : s.pending = none) :
    onError s =
      ((closeSock { s with connected := false }).1,
       Out.errorEv :: (closeSock { s with connected := false }).2) := by
  simp [onError, h]

theorem step_openN_hit (s : State) (sid : Nat) (h : s.socket = some sid) :
    step s (Ev.openN sid) = onOpen s := by
  simp [step, h]

theorem step_openN_miss (s : State) (sid : Nat) (h : ¬s.socket = some sid) :
    step s (Ev.openN sid) = (s, []) := by
  simp [step, h]

theorem step_closeN_hit (s : State) (sid : Nat) (h : s.socket = some sid) :
    step s (Ev.closeN sid) = onClose s := by
  simp [step, h]

theorem step_closeN_miss (s : State) (sid : Nat) (h : ¬s.socket = some sid) :
    step s (Ev.closeN sid) = (s, []) := by
  simp [step, h]

theorem step_errorN_hit (s : State) (sid : Nat) (h : s.socket = some sid) :
    step s (Ev.errorN sid) = onError s := by
  simp [step, h]

theorem step_errorN_miss (s : State) (sid : Nat) (h : ¬s.socket = some sid) :
    step s (Ev.errorN sid) = (s, []) := by
  simp [step, h]

theorem step_messageN_hit (s : State) (sid : Nat) (d : MsgData)
    (h : s.socket = some sid) : step s (Ev.messageN sid d) = onMessage s d := by
  simp [step, h]

theorem step_messageN_miss (s : State) (sid : Nat) (d : MsgData)
    (h : ¬s.socket = some sid) : step s (Ev.messageN sid d) = (s, []) := by
  simp [step, h]

theorem step_timer_armed (s : State) (h : s.timer = true) :
    step s Ev.timerFire = openSock { s with timer := false } := by
  simp [step, h]

theorem step_timer_idle (s : State) (h : s.timer = false) :
    step s Ev.timerFire = (s, []) := by
  simp [step, h]

/-! ### Generic trace lemmas -/

theorem run_nil (s : State) : run s [] = (s, []) := rfl

theorem run_cons (s : State) (e : Ev) (evs : List Ev) :
    run s (e :: evs) =
      ((run (step s e).1 evs).1, (step s e).2 ++ (run (step s e).1 evs).2) :=
  rfl

theorem run_append (s : State) (l1 l2 : List Ev) :
    run s (l1 ++ l2) =
      ((run (run s l1).1 l2).1, (run s l1).2 ++ (run (run s l1).1 l2).2) := by
  induction l1 generalizing s with
  | nil => simp [run]
  | cons e l1 ih => simp [run, ih]

theorem run_inv {P : State → Prop} (h : ∀ s e, P s → P (step s e).1) :
    ∀ (evs : List Ev) (s : State), P s → P (run s evs).1 := by
  intro evs
  induction evs with
  | nil => intro s hs; simpa [run] using hs
  | cons e evs ih => intro s hs; simpa [run] using ih _ (h s e hs)

theorem run_inv_out {P : State → Prop} {Q : Out → Prop}
    (hP : ∀ s e, P s → P (step s e).1)
    (hQ : ∀ s e, P s → ∀ o ∈ (step s e).2, Q o) :
    ∀ (evs : List Ev) (s : State), P s → ∀ o ∈ (run s evs).2, Q o := by
  intro evs
  induction evs with
  | nil => intro s _ o ho; simp [run] at ho
  | cons e evs ih =>
      intro s hs o ho
      rw [run_cons] at ho
      rcases List.mem_append.mp ho with h1 | h2
      · exact hQ s e hs o h1
      · exact ih _ (hP s e hs) o h2

theorem onMessage_fst (s : State) (d : MsgData) : (onMessage s d).1 = s := by
  cases d <;> rfl

theorem closeSock_no_fault (s : State) : Out.fault ∉ (closeSock s).2 := by
  rw [closeSock_snd]
  cases hs : s.socket <;> simp [hs]

theorem onClose_no_fault (s : State) : Out.fault ∉ (onClose s).2 := by
  intro hmem
  rcases List.mem_append.mp hmem with h1 | h2
  · exact closeSock_no_fault _ h1
  · simp at h2

theorem onError_no_fault (s : State) : Out.fault ∉ (onError s).2 := by
  intro hmem
  by_cases hp : s.pending.isSome
  · obtain ⟨pid, hpid⟩ := Option.isSome_iff_exists.mp hp
    rw [onError_of_pending s pid hpid] at hmem
    simp at hmem
    exact closeSock_no_fault _ hmem
  · rw [onError_of_none s (Option.not_isSome_iff_eq_none.mp hp)] at hmem
    simp at hmem
    exact closeSock_no_fault _ hmem

/-! ### Reachability invariants -/

/-- Whenever the reconnect timeout is armed, no socket is held: `_reconnect`
runs only at the end of `_close`, after the socket handle has been dropped,
and `connect()` clears the timeout before reaching `_open`. -/
def TimerInv (s : State) : Prop := s.timer = true → s.socket = none

theorem timerInv_step (s : State) (e : Ev) (h : TimerInv s) :
    TimerInv (step s e).1 := by
  cases e with
  | connect =>
      show TimerInv (connectStep s).2.1
      by_cases hp : s.pending.isSome
      · rw [connectStep_of_pending s hp]; intro ht; simp at ht
      · have hp' : s.pending = none := Option.not_isSome_iff_eq_none.mp hp
        by_cases hb : s.connected = true ∨ s.socket.isSome
        · rw [connectStep_of_busy s hp' hb]; intro ht; simp at ht
        · push_neg at hb
          have hc : s.connected = false := by
            simpa using hb.1
          have hn : s.socket = none := Option.not_isSome_iff_eq_none.mp hb.2
          rw [connectStep_of_free s hp' hc hn]; intro ht; simp at ht
  | disconnect =>
      intro _
      show (closeSock (dropStep s)).1.socket = none
      rw [closeSock_fst]
  | destroy =>
      intro _
      show ({ (closeSock (dropStep s)).1 with pending := none } : State).socket
            = none
      rw [closeSock_fst]
  | send buf => exact h
  | openN sid =>
      by_cases hs : s.socket = some sid
      · rw [step_openN_hit s sid hs]
        by_cases hp : s.pending.isSome
        · obtain ⟨pid, hpid⟩ := Option.isSome_iff_exists.mp hp
          rw [onOpen_of_pending s pid hpid]
          intro ht
          exact h ht
        · rw [onOpen_of_none s (Option.not_isSome_iff_eq_none.mp hp)]
          intro ht
          exact h ht
      · rw [step_openN_miss s sid hs]; exact h
  | closeN sid =>
      by_cases hs : s.socket = some sid
      · rw [step_closeN_hit s sid hs]
        intro _
        show (closeSock { s with connected := false }).1.socket = none
        rw [closeSock_fst]
      · rw [step_closeN_miss s sid hs]; exact h
  | errorN sid =>
      by_cases hs : s.socket = some sid
      · rw [step_errorN_hit s sid hs]
        by_cases hp : s.pending.isSome
        · obtain ⟨pid, hpid⟩ := Option.isSome_iff_exists.mp hp
          rw [onError_of_pending s pid hpid]
          intro _
          show (closeSock
                  { s with connected := false, pending := none }).1.socket
                = none
          rw [closeSock_fst]
        · rw [onError_of_none s (Option.not_isSome_iff_eq_none.mp hp)]
          intro _
          show (closeSock { s with connected := false }).1.socket = none
          rw [closeSock_fst]
      · rw [step_errorN_miss s sid hs]; exact h
  | messageN sid d =>
      by_cases hs : s.socket = some sid
      · rw [step_messageN_hit s sid d hs, onMessage_fst]; exact h
      · rw [step_messageN_miss s sid d hs]; exact h
  | timerFire =>
      cases ht : s.timer with
      | false => rw [step_timer_idle s ht]; exact h
      | true =>
          rw [step_timer_armed s ht]
          have hsock : ({ s with timer := false } : State).socket = none :=
            h ht
          rw [openSock_of_none _ hsock]
          intro ht'
          simp at ht'

theorem step_no_fault (s : State) (e : Ev) (h : TimerInv s) :
    Out.fault ∉ (step s e).2 := by
  cases e with
  | connect =>
      show Out.fault ∉ (connectStep s).2.2
      by_cases hp : s.pending.isSome
      · simp [connectStep_of_pending s hp]
      · have hp' : s.pending = none := Option.not_isSome_iff_eq_none.mp hp
        by_cases hb : s.connected = true ∨ s.socket.isSome
        · simp [connectStep_of_busy s hp' hb]
        · push_neg at hb
          have hc : s.connected = false := by
            simpa using hb.1
          have hn : s.socket = none := Option.not_isSome_iff_eq_none.mp hb.2
          simp [connectStep_of_free s hp' hc hn]
  | disconnect => exact closeSock_no_fault (dropStep s)
  | destroy => exact closeSock_no_fault (dropStep s)
  | send buf =>
      show Out.fault ∉ (sendStep s buf).2
      obtain ⟨sock, conn, pend, tim, rec, nsid, npid, addr, auto⟩ := s
      cases sock <;> cases conn <;> simp [sendStep]
  | openN sid =>
      by_cases hs : s.socket = some sid
      · rw [step_openN_hit s sid hs]
        by_cases hp : s.pending.isSome
        · obtain ⟨pid, hpid⟩ := Option.isSome_iff_exists.mp hp
          simp [onOpen_of_pending s pid hpid]
        · simp [onOpen_of_none s (Option.not_isSome_iff_eq_none.mp hp)]
      · simp [step_openN_miss s sid hs]
  | closeN sid =>
      by_cases hs : s.socket = some sid
      · rw [step_closeN_hit s sid hs]; exact onClose_no_fault s
      · simp [step_closeN_miss s sid hs]
  | errorN sid =>
      by_cases hs : s.socket = some sid
      · rw [step_errorN_hit s sid hs]; exact onError_no_fault s
      · simp [step_errorN_miss s sid hs]
  | messageN sid d =>
      by_cases hs : s.socket = some sid
      · rw [step_messageN_hit s sid d hs]; cases d <;> simp [onMessage]
      · simp [step_messageN_miss s sid d hs]
  | timerFire =>
      cases ht : s.timer with
      | false => simp [step_timer_idle s ht]
      | true =>
          rw [step_timer_armed s ht]
          have hsock : ({ s with timer := false } : State).socket = none :=
            h ht
          simp [openSock_of_none _ hsock]

theorem construct_timerInv (addr : String) (opts : ConnectionOptions) :
    TimerInv (construct addr opts).1 := by
  by_cases ha : opts.autoconnect = true
  · show TimerInv (construct addr opts).1
    rw [construct]
    rw [if_pos ha]
    rw [connectStep_of_free (initState addr opts) rfl rfl rfl]
    intro ht
    simp at ht
  · rw [construct, if_neg ha]
    intro ht
    simp [initState] at ht

theorem construct_no_fault (addr : String) (opts : ConnectionOptions) :
    Out.fault ∉ (construct addr opts).2 := by
  by_cases ha : opts.autoconnect = true
  · rw [construct, if_pos ha]
    rw [connectStep_of_free (initState addr opts) rfl rfl rfl]
    simp
  · rw [construct, if_neg ha]
    simp

/-- States reachable from some construction by a sequence of public operations
and transport/timer notifications. -/
def Reachable (s : State) : Prop :=
  ∃ addr opts evs, s = (exec addr opts evs).1

theorem reachable_timerInv (s : State) (h : Reachable s) : TimerInv s := by
  obtain ⟨addr, opts, evs, rfl⟩ := h
  exact run_inv timerInv_step evs _ (construct_timerInv addr opts)

/-- C8: the fatal branch of `_open` (the `throw` taken when a socket already
exists) is unreachable: under every construction (with or without
`autoconnect`) and every sequence of public operations and transport/timer
notifications, no step ever produces the `Out.fault` marker, because both
call sites of `_open` — the `connect()` success path and the reconnect
timeout callback — only run while no socket is held. -/
theorem open_fault_unreachable (addr : String) (opts : ConnectionOptions)
    (evs : List Ev) : Out.fault ∉ (exec addr opts evs).2 := by
  intro hmem
  simp only [exec] at hmem
  rcases List.mem_append.mp hmem with h1 | h2
  · exact construct_no_fault addr opts h1
  · exact
      (@run_inv_out TimerInv (fun o => o ≠ Out.fault) timerInv_step
        (fun s e hs o ho heq => step_no_fault s e hs (heq ▸ ho))
        evs (construct addr opts).1 (construct_timerInv addr opts)
        Out.fault h2) rfl

/-- Witness for C8 at a concrete trace exercising connect, open, close,
reconnect-timer fire and a second open. -/
theorem open_fault_unreachable_witness :
    Out.fault ∉
      (exec demoAddr ⟨false, 100⟩
        [Ev.connect, Ev.openN 0, Ev.closeN 0, Ev.timerFire,
         Ev.openN 1]).2 :=
  open_fault_unreachable demoAddr ⟨false, 100⟩
    [Ev.connect, Ev.openN 0, Ev.closeN 0, Ev.timerFire, Ev.openN 1]

/-- C4: an unsolicited transport close in the Connected state emits exactly
one `disconnected` event and releases the socket; if the configured reconnect
delay is positive the reconnect timeout is armed and its firing re-opens a
fresh socket; if the delay is zero or negative no timeout is armed. -/
theorem unsolicited_close_reconnect (s : State) (sid : Nat)
    (hr : Reachable s) (_hc : s.connected = true) (hs : s.socket = some sid) :
    (step s (Ev.closeN sid)).2 = [Out.closedSock sid, Out.disconnectedEv] ∧
    ((step s (Ev.closeN sid)).2.count Out.disconnectedEv = 1) ∧
    (step s (Ev.closeN sid)).1.socket = none ∧
    (step s (Ev.closeN sid)).1.connected = false ∧
    (step s (Ev.closeN sid)).1.pending = s.pending ∧
    (step s (Ev.closeN sid)).1.reconnect = s.reconnect ∧
    (0 < s.reconnect →
      (step s (Ev.closeN sid)).1.timer = true ∧
      (step (step s (Ev.closeN sid)).1 Ev.timerFire).1.socket
        = some s.nextSid ∧
      (step (step s (Ev.closeN sid)).1 Ev.timerFire).2 = []) ∧
    (s.reconnect ≤ 0 → (step s (Ev.closeN sid)).1.timer = false) := by
  have htimer : s.timer = false := by
    cases ht : s.timer
    · rfl
    · exact absurd (reachable_timerInv s hr ht) (by simp [hs])
  rw [step_closeN_hit s sid hs]
  have houts : (onClose s).2 = [Out.closedSock sid, Out.disconnectedEv] := by
    show (closeSock { s with connected := false }).2 ++ [Out.disconnectedEv]
          = _
    rw [closeSock_snd]
    show (s.socket.elim [] fun i => [Out.closedSock i]) ++ _ = _
    rw [hs]
    rfl
  have hfst : (onClose s).1
      = { s with connected := false, socket := none,
                 timer := if s.reconnect ≤ 0 then false else true } := by
    show (closeSock { s with connected := false }).1 = _
    rw [closeSock_fst]
    rw [htimer]
  refine ⟨houts, by rw [houts]; rfl, ?_, ?_, ?_, ?_, ?_, ?_⟩
  · rw [hfst]
  · rw [hfst]
  · rw [hfst]
  · rw [hfst]
  · intro hpos
    have hnle : ¬s.reconnect ≤ 0 := by omega
    have ht' : (onClose s).1.timer = true := by rw [hfst]; simp [hnle]
    refine ⟨ht', ?_, ?_⟩
    · rw [step_timer_armed _ ht']
      have hnone : ({ (onClose s).1 with timer := false } : State).socket
          = none := by rw [hfst]
      rw [openSock_of_none _ hnone]
      rw [hfst]
    · rw [step_timer_armed _ ht']
      have hnone : ({ (onClose s).1 with timer := false } : State).socket
          = none := by rw [hfst]
      rw [openSock_of_none _ hnone]
  · intro hle
    rw [hfst]
    simp [hle]

/-- Witness for C4 at the concrete trace connect-then-open with delay 100. -/
theorem unsolicited_close_reconnect_witness :
    (step (exec demoAddr ⟨false, 100⟩ [Ev.connect, Ev.openN 0]).1
        (Ev.closeN 0)).2
      = [Out.closedSock 0, Out.disconnectedEv] :=
  (unsolicited_close_reconnect
      (exec demoAddr ⟨false, 100⟩ [Ev.connect, Ev.openN 0]).1 0
      ⟨demoAddr, ⟨false, 100⟩, [Ev.connect, Ev.openN 0], rfl⟩
      (by decide) (by decide)).1

/-- Reconnect is disabled: the delay has been set to a non-positive sentinel
and no timeout is armed. -/
def NoReconnect (s : State) : Prop := s.reconnect ≤ 0 ∧ s.timer = false

theorem noReconnect_step (s : State) (e : Ev) (h : NoReconnect s) :
    NoReconnect (step s e).1 := by
  obtain ⟨hrec, htim⟩ := h
  cases e with
  | connect =>
      show NoReconnect (connectStep s).2.1
      by_cases hp : s.pending.isSome
      · rw [connectStep_of_pending s hp]; exact ⟨hrec, rfl⟩
      · have hp' : s.pending = none := Option.not_isSome_iff_eq_none.mp hp
        by_cases hb : s.connected = true ∨ s.socket.isSome
        · rw [connectStep_of_busy s hp' hb]; exact ⟨hrec, rfl⟩
        · push_neg at hb
          have hcn : s.connected = false := by
            simpa using hb.1
          have hn : s.socket = none := Option.not_isSome_iff_eq_none.mp hb.2
          rw [connectStep_of_free s hp' hcn hn]; exact ⟨hrec, rfl⟩
  | disconnect =>
      show NoReconnect (closeSock (dropStep s)).1
      rw [closeSock_fst]
      exact ⟨by norm_num [dropStep], by simp [dropStep]⟩
  | destroy =>
      show NoReconnect
        ({ (closeSock (dropStep s)).1 with pending := none } : State)
      rw [closeSock_fst]
      exact ⟨by norm_num [dropStep], by simp [dropStep]⟩
  | send buf => exact ⟨hrec, htim⟩
  | openN sid =>
      by_cases hs : s.socket = some sid
      · rw [step_openN_hit s sid hs]
        by_cases hp : s.pending.isSome
        · obtain ⟨pid, hpid⟩ := Option.isSome_iff_exists.mp hp
          rw [onOpen_of_pending s pid hpid]; exact ⟨hrec, htim⟩
        · rw [onOpen_of_none s (Option.not_isSome_iff_eq_none.mp hp)]
          exact ⟨hrec, htim⟩
      · rw [step_openN_miss s sid hs]; exact ⟨hrec, htim⟩
  | closeN sid =>
      by_cases hs : s.socket = some sid
      · rw [step_closeN_hit s sid hs]
        show NoReconnect (closeSock { s with connected := false }).1
        rw [closeSock_fst]
        exact ⟨hrec, by simp [hrec, htim]⟩
      · rw [step_closeN_miss s sid hs]; exact ⟨hrec, htim⟩
  | errorN sid =>
      by_cases hs : s.socket = some sid
      · rw [step_errorN_hit s sid hs]
        by_cases hp : s.pending.isSome
        · obtain ⟨pid, hpid⟩ := Option.isSome_iff_exists.mp hp
          rw [onError_of_pending s pid hpid]
          show NoReconnect
            (closeSock { s with connected := false, pending := none }).1
          rw [closeSock_fst]
          exact ⟨hrec, by simp [hrec, htim]⟩
        · rw [onError_of_none s (Option.not_isSome_iff_eq_none.mp hp)]
          show NoReconnect (closeSock { s with connected := false }).1
          rw [closeSock_fst]
          exact ⟨hrec, by simp [hrec, htim]⟩
      · rw [step_errorN_miss s sid hs]; exact ⟨hrec, htim⟩
  | messageN sid d =>
      by_cases hs : s.socket = some sid
      · rw [step_messageN_hit s sid d hs, onMessage_fst]; exact ⟨hrec, htim⟩
      · rw [step_messageN_miss s sid d hs]; exact ⟨hrec, htim⟩
  | timerFire =>
      rw [step_timer_idle s htim]; exact ⟨hrec, htim⟩

theorem disconnectStep_noReconnect (s : State) :
    NoReconnect (disconnectStep s).1 := by
  show NoReconnect (closeSock (dropStep s)).1
  rw [closeSock_fst]
  exact ⟨by norm_num [dropStep], by simp [dropStep]⟩

/-- C5: once `disconnect()` has run, reconnect stays disabled for the life of
the instance: immediately after the `disconnect()` the delay is the disabled
sentinel and no timeout is armed, this persists across every further sequence
of operations and notifications, and at every such later point a timer-fire
is a no-op (so no timer-driven `_open` ever occurs again). -/
theorem no_auto_reconnect_after_disconnect (addr : String)
    (opts : ConnectionOptions) (evs1 evs2 : List Ev) :
    NoReconnect (exec addr opts (evs1 ++ [Ev.disconnect])).1 ∧
    NoReconnect (run (exec addr opts (evs1 ++ [Ev.disconnect])).1 evs2).1 ∧
    step (run (exec addr opts (evs1 ++ [Ev.disconnect])).1 evs2).1
        Ev.timerFire
      = ((run (exec addr opts (evs1 ++ [Ev.disconnect])).1 evs2).1, []) := by
  have h1 : NoReconnect (exec addr opts (evs1 ++ [Ev.disconnect])).1 := by
    show NoReconnect
      (run (construct addr opts).1 (evs1 ++ [Ev.disconnect])).1
    rw [run_append]
    show NoReconnect
      (run (step (run (construct addr opts).1 evs1).1 Ev.disconnect).1 []).1
    exact disconnectStep_noReconnect _
  have h2 : NoReconnect
      (run (exec addr opts (evs1 ++ [Ev.disconnect])).1 evs2).1 :=
    run_inv noReconnect_step evs2 _ h1
  exact ⟨h1, h2, step_timer_idle _ h2.2⟩

/-- Witness for C5 on a concrete trace that connects, opens, disconnects and
then lets more events (including a timer-fire) happen. -/
theorem no_auto_reconnect_after_disconnect_witness :
    step (run (exec demoAddr ⟨false, 100⟩
          ([Ev.connect, Ev.openN 0] ++ [Ev.disconnect])).1
        [Ev.timerFire, Ev.closeN 0]).1 Ev.timerFire
      = ((run (exec demoAddr ⟨false, 100⟩
            ([Ev.connect, Ev.openN 0] ++ [Ev.disconnect])).1
          [Ev.timerFire, Ev.closeN 0]).1, []) :=
  (no_auto_reconnect_after_disconnect demoAddr ⟨false, 100⟩
    [Ev.connect, Ev.openN 0] [Ev.timerFire, Ev.closeN 0]).2.2

theorem step_frame (s : State) (e : Ev) :
    (step s e).1.address = s.address ∧
    (step s e).1.autoconnect = s.autoconnect ∧
    ((step s e).1.reconnect = s.reconnect ∨ (step s e).1.reconnect = -1) ∧
    (e ≠ Ev.disconnect → e ≠ Ev.destroy →
      (step s e).1.reconnect = s.reconnect) := by
  cases e with
  | connect =>
      by_cases hp : s.pending.isSome
      · simp [step, connectStep_of_pending s hp]
      · have hp' : s.pending = none := Option.not_isSome_iff_eq_none.mp hp
        by_cases hb : s.connected = true ∨ s.socket.isSome
        · simp [step, connectStep_of_busy s hp' hb]
        · push_neg at hb
          have hcn : s.connected = false := by
            simpa using hb.1
          have hn : s.socket = none := Option.not_isSome_iff_eq_none.mp hb.2
          simp [step, connectStep_of_free s hp' hcn hn]
  | disconnect => simp [step, disconnectStep, closeSock_fst, dropStep]
  | destroy => simp [step, destroyStep, closeSock_fst, dropStep]
  | send buf => simp [step]
  | openN sid =>
      by_cases hs : s.socket = some sid
      · rw [step_openN_hit s sid hs]
        by_cases hp : s.pending.isSome
        · obtain ⟨pid, hpid⟩ := Option.isSome_iff_exists.mp hp
          simp [onOpen_of_pending s pid hpid]
        · simp [onOpen_of_none s (Option.not_isSome_iff_eq_none.mp hp)]
      · simp [step_openN_miss s sid hs]
  | closeN sid =>
      by_cases hs : s.socket = some sid
      · simp [step_closeN_hit s sid hs, onClose, closeSock_fst]
      · simp [step_closeN_miss s sid hs]
  | errorN sid =>
      by_cases hs : s.socket = some sid
      · rw [step_errorN_hit s sid hs]
        by_cases hp : s.pending.isSome
        · obtain ⟨pid, hpid⟩ := Option.isSome_iff_exists.mp hp
          simp [onError_of_pending s pid hpid, closeSock_fst]
        · simp [onError_of_none s (Option.not_isSome_iff_eq_none.mp hp),
            closeSock_fst]
      · simp [step_errorN_miss s sid hs]
  | messageN sid d =>
      by_cases hs : s.socket = some sid
      · simp [step_messageN_hit s sid d hs, onMessage_fst]
      · simp [step_messageN_miss s sid d hs]
  | timerFire =>
      cases ht : s.timer with
      | false => simp [step_timer_idle s ht]
      | true =>
          rw [step_timer_armed s ht]
          cases s.socket <;> simp [openSock]

theorem construct_frame (addr : String) (opts : ConnectionOptions) :
    (construct addr opts).1.address = addr ∧
    (construct addr opts).1.autoconnect = opts.autoconnect ∧
    (construct addr opts).1.reconnect = opts.reconnect := by
  by_cases ha : opts.autoconnect = true
  · rw [construct, if_pos ha]
    rw [connectStep_of_free (initState addr opts) rfl rfl rfl]
    exact ⟨rfl, rfl, rfl⟩
  · rw [construct, if_neg ha]
    exact ⟨rfl, rfl, rfl⟩

theorem run_reconnect_nodrop :
    ∀ (evs : List Ev) (s : State), hasDrop evs = false →
      (run s evs).1.reconnect = s.reconnect := by
  intro evs
  induction evs with
  | nil => intro s _; rfl
  | cons e evs ih =>
      intro s hnd
      have hnd' : hasDrop evs = false ∧
          e ≠ Ev.disconnect ∧ e ≠ Ev.destroy := by
        cases e <;> simp_all [hasDrop]
      have he : (step s e).1.reconnect = s.reconnect :=
        (step_frame s e).2.2.2 hnd'.2.1 hnd'.2.2
      show (run (step s e).1 evs).1.reconnect = s.reconnect
      rw [ih _ hnd'.1, he]

theorem run_reconnect_cases :
    ∀ (evs : List Ev) (s : State),
      (run s evs).1.reconnect = s.reconnect ∨
        (run s evs).1.reconnect = -1 := by
  intro evs
  induction evs with
  | nil => intro s; exact Or.inl rfl
  | cons e evs ih =>
      intro s
      show (run (step s e).1 evs).1.reconnect = s.reconnect ∨
        (run (step s e).1 evs).1.reconnect = -1
      rcases ih (step s e).1 with h | h <;> rw [h]
      · exact (step_frame s e).2.2.1
      · exact Or.inr rfl

/-- C9 counterexample: the per-instance configuration is not immutable — a
single `disconnect()` overwrites the configured reconnect delay (here `100`)
with `-1` via `_drop`. -/
theorem config_mutated_by_disconnect_cex :
    (initState demoAddr ⟨false, 100⟩).reconnect = 100 ∧
    (exec demoAddr ⟨false, 100⟩ [Ev.disconnect]).1.reconnect = -1 := by
  exact ⟨rfl, rfl⟩

/-- C9 (amended): the address and `autoconnect` configuration are immutable
after construction, and the reconnect-delay field is modified by no operation
other than `disconnect()`/`destroy()` (which overwrite it with the disabled
sentinel `-1` via `_drop`): after any trace it is either the constructed
value or `-1`, and equals the constructed value whenever the trace contains
no `disconnect`/`destroy`. -/
theorem config_immutable_except_reconnect_drop (addr : String)
    (opts : ConnectionOptions) (evs : List Ev) :
    (exec addr opts evs).1.address = addr ∧
    (exec addr opts evs).1.autoconnect = opts.autoconnect ∧
    ((exec addr opts evs).1.reconnect = opts.reconnect ∨
      (exec addr opts evs).1.reconnect = -1) ∧
    (hasDrop evs = false →
      (exec addr opts evs).1.reconnect = opts.reconnect) := by
  obtain ⟨hca, hcau, hcr⟩ := construct_frame addr opts
  refine ⟨?_, ?_, ?_, ?_⟩
  · show (run (construct addr opts).1 evs).1.address = addr
    exact run_inv (fun s e hs => ((step_frame s e).1).trans hs) evs _ hca
  · exact run_inv (fun s e hs => ((step_frame s e).2.1).trans hs) evs _ hcau
  · show (run (construct addr opts).1 evs).1.reconnect = opts.reconnect ∨
      (run (construct addr opts).1 evs).1.reconnect = -1
    rcases run_reconnect_cases evs (construct addr opts).1 with h | h <;>
      rw [h]
    · exact Or.inl hcr
    · exact Or.inr rfl
  · intro hnd
    show (run (construct addr opts).1 evs).1.reconnect = _
    rw [run_reconnect_nodrop evs _ hnd, hcr]

/-- Witness for C9 (amended) on a trace with no disconnect/destroy. -/
theorem config_immutable_except_reconnect_drop_witness :
    (exec demoAddr ⟨false, 100⟩ [Ev.connect, Ev.openN 0, Ev.closeN 0]).1.reconnect
      = 100 :=
  (config_immutable_except_reconnect_drop demoAddr ⟨false, 100⟩
    [Ev.connect, Ev.openN 0, Ev.closeN 0]).2.2.2 (by decide)

/-- C2: evaluation at the failing input.  After a successful connect
(`connect()` then the `open` notification) followed by `disconnect()`, the
controller still holds `_connected = true` although the socket is gone
(`disconnect` removes the listeners before closing, so the `close` handler
that would reset `_connected` never runs), and a subsequent `connect()` is
rejected with `Already connected` instead of starting a fresh attempt — the
state after `disconnect()` is not Idle. -/
theorem connect_after_disconnect_rejected :
    (exec demoAddr ⟨false, 100⟩
        [Ev.connect, Ev.openN 0, Ev.disconnect]).1.connected = true ∧
    (exec demoAddr ⟨false, 100⟩
        [Ev.connect, Ev.openN 0, Ev.disconnect]).1.socket = none ∧
    (connectStep
        (exec demoAddr ⟨false, 100⟩ [Ev.connect, Ev.openN 0, Ev.disconnect]).1).1
      = ConnectResult.rejectedAlreadyConnected ∧
    (connectStep
        (exec demoAddr ⟨false, 100⟩
          [Ev.connect, Ev.openN 0, Ev.disconnect]).1).2.1
      = { (exec demoAddr ⟨false, 100⟩
            [Ev.connect, Ev.openN 0, Ev.disconnect]).1 with timer := false } :=
  ⟨rfl, rfl, rfl, rfl⟩

/-- C3 counterexample: a rejected `connect()` is not state-change free — with
a reconnect timeout armed and a pending connect (close notification delivered
while connecting, delay 100), `connect()` rejects with `AlreadyPending` but
disarms the timeout, because `clearTimeout` runs before the reject checks. -/
theorem connect_reject_modifies_timer_cex :
    (exec demoAddr ⟨false, 100⟩ [Ev.connect, Ev.closeN 0]).1.timer = true ∧
    (connectStep (exec demoAddr ⟨false, 100⟩ [Ev.connect, Ev.closeN 0]).1).1
      = ConnectResult.rejectedAlreadyPending ∧
    (connectStep (exec demoAddr ⟨false, 100⟩ [Ev.connect, Ev.closeN 0]).1).2.1.timer
      = false :=
  ⟨rfl, rfl, rfl⟩

/-- C3 (amended): `connect()` while a pending connect exists or while
connected fails immediately with a rejected promise, creates no socket and
leaves the pending slot, the connected flag and the socket untouched — but it
always cancels an armed reconnect timeout first (the only state change). -/
theorem connect_reject_clears_timer (s : State)
    (h : s.pending.isSome ∨ s.connected = true ∨ s.socket.isSome) :
    (connectStep s).2.1 = { s with timer := false } ∧
    (connectStep s).2.2 = [] ∧
    (s.pending.isSome →
      (connectStep s).1 = ConnectResult.rejectedAlreadyPending) ∧
    (s.pending = none →
      (connectStep s).1 = ConnectResult.rejectedAlreadyConnected) := by
  by_cases hp : s.pending.isSome
  · rw [connectStep_of_pending s hp]
    refine ⟨rfl, rfl, fun _ => rfl, fun hn => ?_⟩
    rw [hn] at hp
    simp at hp
  · have hp' : s.pending = none := Option.not_isSome_iff_eq_none.mp hp
    have hb : s.connected = true ∨ s.socket.isSome := by
      rcases h with h1 | h2 | h3
      · exact absurd h1 hp
      · exact Or.inl h2
      · exact Or.inr h3
    rw [connectStep_of_busy s hp' hb]
    exact ⟨rfl, rfl, fun hps => absurd hps hp, fun _ => rfl⟩

/-- Witness for C3 (amended): with a connect pending, a second `connect()`
rejects with `AlreadyPending` and the post-state is the pre-state with the
timeout cleared. -/
theorem connect_reject_clears_timer_witness :
    (connectStep (exec demoAddr ⟨false, 100⟩ [Ev.connect]).1).1
      = ConnectResult.rejectedAlreadyPending :=
  (connect_reject_clears_timer (exec demoAddr ⟨false, 100⟩ [Ev.connect]).1
    (Or.inl (by decide))).2.2.1 (by decide)

/-- C6: inbound message handling — a text payload yields exactly one `error`
emission, no `data` emission and no state change (connection left open); a
binary payload yields exactly one `data` emission with those bytes and no
`error`; an array-of-buffers payload yields exactly one `data` emission with
the in-order concatenation of the fragments and no `error`. -/
theorem message_payload_emissions (s : State) (sid : Nat)
    (h : s.socket = some sid) :
    (∀ txt, step s (Ev.messageN sid (MsgData.text txt))
        = (s, [Out.errorEv])) ∧
    (∀ b, step s (Ev.messageN sid (MsgData.binary b))
        = (s, [Out.dataEv b])) ∧
    (∀ bs, step s (Ev.messageN sid (MsgData.fragmented bs))
        = (s, [Out.dataEv bs.flatten])) := by
  refine ⟨fun txt => ?_, fun b => ?_, fun bs => ?_⟩ <;>
    rw [step_messageN_hit s sid _ h] <;> rfl

/-- Witness for C6: a binary frame on the live socket yields one `data`
emission with the same bytes. -/
theorem message_payload_emissions_witness :
    step (exec demoAddr ⟨false, 100⟩ [Ev.connect]).1
        (Ev.messageN 0 (MsgData.binary [7, 8]))
      = ((exec demoAddr ⟨false, 100⟩ [Ev.connect]).1, [Out.dataEv [7, 8]]) :=
  (message_payload_emissions (exec demoAddr ⟨false, 100⟩ [Ev.connect]).1 0
    (by decide)).2.1 [7, 8]

/-- C7: `send` is synchronous and never throws — it returns a not-connected
error value and performs no transport I/O whenever `_connected` is false or
no socket is held (in particular on any freshly constructed instance), it
forwards the bytes to the socket exactly once and returns `undefined` when
the connection is open, and it never changes the controller state (no
buffering while disconnected). -/
theorem send_synchronous_behavior (s : State) (buf : List Nat) :
    ((s.connected = false ∨ s.socket = none) →
      sendStep s buf = (SendResult.notConnected, [])) ∧
    (∀ sid, s.connected = true → s.socket = some sid →
      sendStep s buf = (SendResult.ok, [Out.sent sid buf])) ∧
    (step s (Ev.send buf)).1 = s ∧
    (∀ (addr2 : String) (opts2 : ConnectionOptions),
      sendStep (construct addr2 opts2).1 buf
        = (SendResult.notConnected, [])) := by
  refine ⟨?_, ?_, rfl, ?_⟩
  · intro h
    obtain ⟨sock, conn, pend, tim, rec, nsid, npid, a2, au2⟩ := s
    rcases h with h | h
    · simp only at h
      subst h
      cases sock <;> rfl
    · simp only at h
      subst h
      rfl
  · intro sid hc hsk
    obtain ⟨sock, conn, pend, tim, rec, nsid, npid, a2, au2⟩ := s
    simp only at hc hsk
    subst hc
    subst hsk
    rfl
  · intro addr2 opts2
    by_cases ha : opts2.autoconnect = true
    · rw [construct, if_pos ha,
        connectStep_of_free (initState addr2 opts2) rfl rfl rfl]
      rfl
    · rw [construct, if_neg ha]
      rfl

/-- Witness for C7: `send` on a freshly constructed, never-connected instance
returns the not-connected error and performs no I/O. -/
theorem send_synchronous_behavior_witness :
    sendStep (construct demoAddr ⟨false, 100⟩).1 [1, 2]
      = (SendResult.notConnected, []) :=
  (send_synchronous_behavior (construct demoAddr ⟨false, 100⟩).1 [1, 2]).2.2.2
    demoAddr ⟨false, 100⟩

theorem closeSock_no_disconnected (s : State) :
    Out.disconnectedEv ∉ (closeSock s).2 := by
  rw [closeSock_snd]
  cases hs : s.socket <;> simp [hs]

theorem sendStep_no_disconnected (s : State) (buf : List Nat) :
    Out.disconnectedEv ∉ (sendStep s buf).2 := by
  obtain ⟨sock, conn, pend, tim, rec, nsid, npid, a2, au2⟩ := s
  cases sock <;> cases conn <;> simp [sendStep]

/-- C10: a `disconnected` emission can only be produced by a `close`
notification delivered on the currently registered socket; `disconnect()` and
`destroy()` never emit `disconnected` (the four listeners are removed before
the socket is closed), and after a `disconnect()` the close notification of
the just-closed socket — like any other close notification — is no longer
observed by the controller. -/
theorem disconnected_only_from_transport_close (s : State) :
    (∀ e, Out.disconnectedEv ∈ (step s e).2 →
      ∃ sid, e = Ev.closeN sid ∧ s.socket = some sid) ∧
    Out.disconnectedEv ∉ (step s Ev.disconnect).2 ∧
    Out.disconnectedEv ∉ (step s Ev.destroy).2 ∧
    (step s Ev.disconnect).1.socket = none ∧
    (∀ sid, step (step s Ev.disconnect).1 (Ev.closeN sid)
      = ((step s Ev.disconnect).1, [])) := by
  have hdisc : (step s Ev.disconnect).1.socket = none := by
    show (closeSock (dropStep s)).1.socket = none
    rw [closeSock_fst]
  refine ⟨?_, closeSock_no_disconnected (dropStep s),
    closeSock_no_disconnected (dropStep s), hdisc, ?_⟩
  · intro e hmem
    cases e with
    | connect =>
        exfalso
        revert hmem
        show Out.disconnectedEv ∈ (connectStep s).2.2 → False
        by_cases hp : s.pending.isSome
        · rw [connectStep_of_pending s hp]; simp
        · have hp' : s.pending = none := Option.not_isSome_iff_eq_none.mp hp
          by_cases hb : s.connected = true ∨ s.socket.isSome
          · rw [connectStep_of_busy s hp' hb]; simp
          · push_neg at hb
            have hcn : s.connected = false := by
              simpa using hb.1
            have hn : s.socket = none :=
              Option.not_isSome_iff_eq_none.mp hb.2
            rw [connectStep_of_free s hp' hcn hn]; simp
    | disconnect => exact absurd hmem (closeSock_no_disconnected (dropStep s))
    | destroy => exact absurd hmem (closeSock_no_disconnected (dropStep s))
    | send buf => exact absurd hmem (sendStep_no_disconnected s buf)
    | openN sid =>
        exfalso
        by_cases hs : s.socket = some sid
        · rw [step_openN_hit s sid hs] at hmem
          by_cases hp : s.pending.isSome
          · obtain ⟨pid, hpid⟩ := Option.isSome_iff_exists.mp hp
            rw [onOpen_of_pending s pid hpid] at hmem
            simp at hmem
          · rw [onOpen_of_none s (Option.not_isSome_iff_eq_none.mp hp)]
              at hmem
            simp at hmem
        · rw [step_openN_miss s sid hs] at hmem
          simp at hmem
    | closeN sid =>
        by_cases hs : s.socket = some sid
        · exact ⟨sid, rfl, hs⟩
        · rw [step_closeN_miss s sid hs] at hmem
          simp at hmem
    | errorN sid =>
        exfalso
        by_cases hs : s.socket = some sid
        · rw [step_errorN_hit s sid hs] at hmem
          by_cases hp : s.pending.isSome
          · obtain ⟨pid, hpid⟩ := Option.isSome_iff_exists.mp hp
            rw [onError_of_pending s pid hpid] at hmem
            rcases List.mem_cons.mp hmem with h1 | h2
            · exact Out.noConfusion h1
            rcases List.mem_cons.mp h2 with h3 | h4
            · exact Out.noConfusion h3
            · exact closeSock_no_disconnected _ h4
          · rw [onError_of_none s (Option.not_isSome_iff_eq_none.mp hp)]
              at hmem
            rcases List.mem_cons.mp hmem with h1 | h2
            · exact Out.noConfusion h1
            · exact closeSock_no_disconnected _ h2
        · rw [step_errorN_miss s sid hs] at hmem
          simp at hmem
    | messageN sid d =>
        exfalso
        by_cases hs : s.socket = some sid
        · rw [step_messageN_hit s sid d hs] at hmem
          cases d <;> simp [onMessage] at hmem
        · rw [step_messageN_miss s sid d hs] at hmem
          simp at hmem
    | timerFire =>
        exfalso
        cases ht : s.timer with
        | false =>
            rw [step_timer_idle s ht] at hmem
            simp at hmem
        | true =>
            rw [step_timer_armed s ht] at hmem
            revert hmem
            cases ({ s with timer := false } : State).socket <;>
              simp [openSock]
  · intro sid
    exact step_closeN_miss _ sid (by rw [hdisc]; simp)

/-- Witness for C10: `disconnect()` on a live connection emits no
`disconnected` event. -/
theorem disconnected_only_from_transport_close_witness :
    Out.disconnectedEv ∉
      (step (exec demoAddr ⟨false, 100⟩ [Ev.connect, Ev.openN 0]).1
        Ev.disconnect).2 :=
  (disconnected_only_from_transport_close
    (exec demoAddr ⟨false, 100⟩ [Ev.connect, Ev.openN 0]).1).2.1

/-! ### Settlement counting -/

theorem settleCount_append (l1 l2 : List Out) (p : Nat) :
    settleCount (l1 ++ l2) p = settleCount l1 p + settleCount l2 p := by
  simp [settleCount, List.countP_append]

theorem settleCount_cons (o : Out) (l : List Out) (p : Nat) :
    settleCount (o :: l) p
      = settleCount l p + (if isSettleOf p o then 1 else 0) := by
  simp [settleCount, List.countP_cons]

theorem settleCount_closeSock (t : State) (p : Nat) :
    settleCount (closeSock t).2 p = 0 := by
  rw [closeSock_snd]
  cases ht : t.socket <;>
    simp [ht, settleCount, isSettleOf, List.countP_cons, List.countP_nil]

theorem settleCount_sendStep (t : State) (buf : List Nat) (p : Nat) :
    settleCount (sendStep t buf).2 p = 0 := by
  obtain ⟨sock, conn, pend, tim, rec, nsid, npid, a2, au2⟩ := t
  cases sock <;> cases conn <;>
    simp [sendStep, settleCount, isSettleOf, List.countP_cons,
      List.countP_nil]

/-- Invariant tying the live pending-promise identifier and the settlement
counts of the output trace: a live pending promise is unsettled and its id is
below the allocation counter, ids not yet allocated are unsettled, and no id
is ever settled twice. -/
def PendInv (s : State) (acc : List Out) : Prop :=
  (∀ p, s.pending = some p → p < s.nextPid ∧ settleCount acc p = 0) ∧
  (∀ p, s.nextPid ≤ p → settleCount acc p = 0) ∧
  (∀ p, settleCount acc p ≤ 1)

theorem pendInv_settle_free (s s' : State) (acc o : List Out)
    (h : PendInv s acc)
    (hpend : s'.pending = s.pending ∨ s'.pending = none)
    (hnext : s'.nextPid = s.nextPid)
    (ho : ∀ p, settleCount o p = 0) :
    PendInv s' (acc ++ o) := by
  obtain ⟨h1, h2, h3⟩ := h
  refine ⟨?_, ?_, ?_⟩
  · intro p hp
    rcases hpend with he | he
    · rw [he] at hp
      obtain ⟨hlt, hz⟩ := h1 p hp
      rw [hnext]
      refine ⟨hlt, ?_⟩
      rw [settleCount_append, ho p, hz]
    · rw [he] at hp
      exact absurd hp (by simp)
  · intro p hp
    rw [hnext] at hp
    rw [settleCount_append, ho p, h2 p hp]
  · intro p
    rw [settleCount_append, ho p]
    have := h3 p
    omega

theorem pendInv_settled (s s' : State) (acc rest : List Out) (pid : Nat)
    (hps : s.pending = some pid) (h : PendInv s acc)
    (hpend : s'.pending = none) (hnext : s'.nextPid = s.nextPid)
    (hrest : ∀ p, settleCount rest p = 0)
    (mk : Out) (hmk : ∀ p, isSettleOf p mk = (pid == p)) :
    PendInv s' (acc ++ (mk :: rest)) := by
  obtain ⟨h1, h2, h3⟩ := h
  obtain ⟨hlt, hacc⟩ := h1 pid hps
  have hco : ∀ p, settleCount (mk :: rest) p = if pid = p then 1 else 0 := by
    intro p
    rw [settleCount_cons, hrest p, hmk p]
    by_cases hpp : pid = p <;> simp [hpp]
  refine ⟨?_, ?_, ?_⟩
  · intro p hp
    rw [hpend] at hp
    exact absurd hp (by simp)
  · intro p hp
    rw [hnext] at hp
    rw [settleCount_append, h2 p hp, hco p]
    have hne : pid ≠ p := by omega
    simp [hne]
  · intro p
    rw [settleCount_append, hco p]
    by_cases hpp : pid = p
    · subst hpp
      rw [hacc]
      simp
    · have := h3 p
      simp [hpp]
      omega

theorem pendInv_new_pending (s s' : State) (acc : List Out)
    (h : PendInv s acc)
    (hpend : s'.pending = some s.nextPid)
    (hnext : s'.nextPid = s.nextPid + 1) :
    PendInv s' (acc ++ []) := by
  obtain ⟨h1, h2, h3⟩ := h
  rw [List.append_nil]
  refine ⟨?_, ?_, ?_⟩
  · intro p hp
    rw [hpend] at hp
    injection hp with hp'
    subst hp'
    rw [hnext]
    exact ⟨by omega, h2 _ (le_refl _)⟩
  · intro p hp
    rw [hnext] at hp
    exact h2 p (by omega)
  · exact h3

theorem pendInv_step (s : State) (acc : List Out) (e : Ev)
    (h : PendInv s acc) : PendInv (step s e).1 (acc ++ (step s e).2) := by
  cases e with
  | connect =>
      show PendInv (connectStep s).2.1 (acc ++ (connectStep s).2.2)
      by_cases hp : s.pending.isSome
      · rw [connectStep_of_pending s hp]
        exact pendInv_settle_free s _ acc _ h (Or.inl rfl) rfl fun p => rfl
      · have hp' : s.pending = none := Option.not_isSome_iff_eq_none.mp hp
        by_cases hb : s.connected = true ∨ s.socket.isSome
        · rw [connectStep_of_busy s hp' hb]
          exact pendInv_settle_free s _ acc _ h (Or.inl rfl) rfl fun p => rfl
        · push_neg at hb
          have hcn : s.connected = false := by
            simpa using hb.1
          have hn : s.socket = none := Option.not_isSome_iff_eq_none.mp hb.2
          rw [connectStep_of_free s hp' hcn hn]
          exact pendInv_new_pending s ({ s with timer := false, pending := some s.nextPid, nextPid := s.nextPid + 1, socket := some s.nextSid, nextSid := s.nextSid + 1 }) acc h rfl rfl
  | disconnect =>
      show PendInv (closeSock (dropStep s)).1
        (acc ++ (closeSock (dropStep s)).2)
      refine pendInv_settle_free s _ acc _ h (Or.inl ?_) ?_
        fun p => settleCount_closeSock _ p
      · rw [closeSock_fst]; rfl
      · rw [closeSock_fst]; rfl
  | destroy =>
      show PendInv ({ (closeSock (dropStep s)).1 with pending := none })
        (acc ++ (closeSock (dropStep s)).2)
      refine pendInv_settle_free s _ acc _ h (Or.inr rfl) ?_
        fun p => settleCount_closeSock _ p
      show (closeSock (dropStep s)).1.nextPid = s.nextPid
      rw [closeSock_fst]; rfl
  | send buf =>
      exact pendInv_settle_free s s acc _ h (Or.inl rfl) rfl
        fun p => settleCount_sendStep s buf p
  | openN sid =>
      by_cases hs : s.socket = some sid
      · rw [step_openN_hit s sid hs]
        by_cases hp : s.pending.isSome
        · obtain ⟨pid, hpid⟩ := Option.isSome_iff_exists.mp hp
          rw [onOpen_of_pending s pid hpid]
          exact pendInv_settled s
            ({ s with connected := true, pending := none }) acc
            [Out.connectedEv] pid hpid h rfl rfl
            (fun p => by
              simp [settleCount, isSettleOf, List.countP_cons,
                List.countP_nil])
            (Out.resolvedP pid) fun p => rfl
        · rw [onOpen_of_none s (Option.not_isSome_iff_eq_none.mp hp)]
          exact pendInv_settle_free s _ acc _ h (Or.inl rfl) rfl
            fun p => by
              simp [settleCount, isSettleOf, List.countP_cons,
                List.countP_nil]
      · rw [step_openN_miss s sid hs]
        exact pendInv_settle_free s s acc _ h (Or.inl rfl) rfl fun p => rfl
  | closeN sid =>
      by_cases hs : s.socket = some sid
      · rw [step_closeN_hit s sid hs]
        refine pendInv_settle_free s _ acc _ h (Or.inl ?_) ?_ ?_
        · show (closeSock { s with connected := false }).1.pending = s.pending
          rw [closeSock_fst]
        · show (closeSock { s with connected := false }).1.nextPid = s.nextPid
          rw [closeSock_fst]
        · intro p
          show settleCount
            ((closeSock { s with connected := false }).2
              ++ [Out.disconnectedEv]) p = 0
          rw [settleCount_append, settleCount_closeSock]
          simp [settleCount, isSettleOf, List.countP_cons, List.countP_nil]
      · rw [step_closeN_miss s sid hs]
        exact pendInv_settle_free s s acc _ h (Or.inl rfl) rfl fun p => rfl
  | errorN sid =>
      by_cases hs : s.socket = some sid
      · rw [step_errorN_hit s sid hs]
        by_cases hp : s.pending.isSome
        · obtain ⟨pid, hpid⟩ := Option.isSome_iff_exists.mp hp
          rw [onError_of_pending s pid hpid]
          refine pendInv_settled s ((closeSock { s with connected := false, pending := none }).1) acc (Out.errorEv :: (closeSock { s with connected := false, pending := none }).2) pid hpid h ?_ ?_ ?_ (Out.rejectedP pid) fun p => rfl
          · rw [closeSock_fst]
          · rw [closeSock_fst]
          · intro p
            rw [settleCount_cons, settleCount_closeSock]
            simp [isSettleOf]
        · rw [onError_of_none s (Option.not_isSome_iff_eq_none.mp hp)]
          refine pendInv_settle_free s ((closeSock { s with connected := false }).1) acc (Out.errorEv :: (closeSock { s with connected := false }).2) h (Or.inl ?_) ?_ ?_
          · rw [closeSock_fst]
          · rw [closeSock_fst]
          · intro p
            rw [settleCount_cons, settleCount_closeSock]
            simp [isSettleOf]
      · rw [step_errorN_miss s sid hs]
        exact pendInv_settle_free s s acc _ h (Or.inl rfl) rfl fun p => rfl
  | messageN sid d =>
      by_cases hs : s.socket = some sid
      · rw [step_messageN_hit s sid d hs]
        refine pendInv_settle_free s _ acc _ h (Or.inl ?_) ?_ ?_
        · rw [onMessage_fst]
        · rw [onMessage_fst]
        · intro p
          cases d <;>
            simp [onMessage, settleCount, isSettleOf, List.countP_cons,
              List.countP_nil]
      · rw [step_messageN_miss s sid d hs]
        exact pendInv_settle_free s s acc _ h (Or.inl rfl) rfl fun p => rfl
  | timerFire =>
      cases ht : s.timer with
      | false =>
          rw [step_timer_idle s ht]
          exact pendInv_settle_free s s acc _ h (Or.inl rfl) rfl fun p => rfl
      | true =>
          rw [step_timer_armed s ht]
          rcases hn : s.socket with _ | i <;>
            refine pendInv_settle_free s _ acc _ h (Or.inl ?_) ?_ ?_ <;>
              simp [openSock, settleCount, isSettleOf, List.countP_cons,
                List.countP_nil]

theorem construct_pendInv (addr : String) (opts : ConnectionOptions) :
    PendInv (construct addr opts).1 (construct addr opts).2 := by
  by_cases ha : opts.autoconnect = true
  · rw [construct, if_pos ha,
      connectStep_of_free (initState addr opts) rfl rfl rfl]
    refine ⟨?_, ?_, ?_⟩
    · intro p hp
      have hp' : 0 = p := by
        simpa [initState] using hp
      subst hp'
      exact ⟨Nat.succ_pos 0, rfl⟩
    · intro p _
      rfl
    · intro p
      simp [settleCount]
  · rw [construct, if_neg ha]
    exact ⟨fun p hp => by simp [initState] at hp, fun p _ => rfl,
      fun p => by simp [settleCount]⟩

theorem pendInv_run :
    ∀ (evs : List Ev) (s : State) (acc : List Out), PendInv s acc →
      PendInv (run s evs).1 (acc ++ (run s evs).2) := by
  intro evs
  induction evs with
  | nil =>
      intro s acc h
      rw [run_nil]
      simpa using h
  | cons e evs ih =>
      intro s acc h
      have h2 := ih (step s e).1 (acc ++ (step s e).2) (pendInv_step s acc e h)
      rw [run_cons]
      rw [List.append_assoc] at h2
      exact h2

/-- C1 (amended): every pending-connect promise settles at most once — never
both resolved and rejected — over every construction and trace; and while a
pending promise exists with a live socket, the delivered `open` notification
resolves exactly it (then emits `connected`) and the delivered `error`
notification rejects exactly it (then emits `error` and closes).  Exactly-once
does not hold in general: `disconnect()` (and, with reconnect disabled, a
`close` notification) while pending can leave the promise forever unsettled. -/
theorem pending_settles_at_most_once (addr : String)
    (opts : ConnectionOptions) (evs : List Ev) (_hnd : NoDestroy evs)
    (p : Nat) :
    settleCount (exec addr opts evs).2 p ≤ 1 ∧
    (∀ (t : State) (pid sid : Nat), t.pending = some pid →
      t.socket = some sid →
      (step t (Ev.openN sid)).2 = [Out.resolvedP pid, Out.connectedEv] ∧
      (step t (Ev.errorN sid)).2
        = Out.rejectedP pid :: Out.errorEv ::
            (closeSock { t with connected := false, pending := none }).2) := by
  constructor
  · have h := pendInv_run evs (construct addr opts).1 (construct addr opts).2
      (construct_pendInv addr opts)
    exact h.2.2 p
  · intro t pid sid hp hs
    constructor
    · rw [step_openN_hit t sid hs, onOpen_of_pending t pid hp]
    · rw [step_errorN_hit t sid hs, onError_of_pending t pid hp]

/-- Witness for C1 (amended): on the trace connect-then-open the promise with
id 0 is settled exactly once, hence at most once. -/
theorem pending_settles_at_most_once_witness :
    settleCount (exec demoAddr ⟨false, 100⟩ [Ev.connect, Ev.openN 0]).2 0 ≤ 1 :=
  (pending_settles_at_most_once demoAddr ⟨false, 100⟩ [Ev.connect, Ev.openN 0]
    (by decide) 0).1

/-- Dead configuration for a pending promise: a pending connect exists but no
socket is held, no timeout is armed and reconnect is disabled.  From here no
destroy-free step can ever settle the pending promise. -/
def Stuck (s : State) : Prop :=
  s.pending.isSome = true ∧ s.socket = none ∧ s.timer = false ∧
    s.reconnect ≤ 0

theorem stuck_step (s : State) (e : Ev) (hst : Stuck s)
    (hne : e ≠ Ev.destroy) :
    Stuck (step s e).1 ∧ ∀ p, settleCount (step s e).2 p = 0 := by
  obtain ⟨hp, hsock, htim, hrec⟩ := hst
  cases e with
  | connect =>
      constructor
      · show Stuck (connectStep s).2.1
        rw [connectStep_of_pending s hp]
        exact ⟨hp, hsock, rfl, hrec⟩
      · intro p
        show settleCount (connectStep s).2.2 p = 0
        rw [connectStep_of_pending s hp]
        rfl
  | disconnect =>
      constructor
      · show Stuck (closeSock (dropStep s)).1
        rw [closeSock_fst]
        refine ⟨hp, rfl, ?_, ?_⟩
        · show (if (dropStep s).reconnect ≤ 0 then (dropStep s).timer
              else true) = false
          norm_num [dropStep]
        · show (dropStep s).reconnect ≤ 0
          norm_num [dropStep]
      · intro p
        exact settleCount_closeSock (dropStep s) p
  | destroy => exact absurd rfl hne
  | send buf =>
      exact ⟨⟨hp, hsock, htim, hrec⟩,
        fun p => settleCount_sendStep s buf p⟩
  | openN sid =>
      have hne' : ¬s.socket = some sid := by rw [hsock]; simp
      rw [step_openN_miss s sid hne']
      exact ⟨⟨hp, hsock, htim, hrec⟩, fun p => rfl⟩
  | closeN sid =>
      have hne' : ¬s.socket = some sid := by rw [hsock]; simp
      rw [step_closeN_miss s sid hne']
      exact ⟨⟨hp, hsock, htim, hrec⟩, fun p => rfl⟩
  | errorN sid =>
      have hne' : ¬s.socket = some sid := by rw [hsock]; simp
      rw [step_errorN_miss s sid hne']
      exact ⟨⟨hp, hsock, htim, hrec⟩, fun p => rfl⟩
  | messageN sid d =>
      have hne' : ¬s.socket = some sid := by rw [hsock]; simp
      rw [step_messageN_miss s sid d hne']
      exact ⟨⟨hp, hsock, htim, hrec⟩, fun p => rfl⟩
  | timerFire =>
      rw [step_timer_idle s htim]
      exact ⟨⟨hp, hsock, htim, hrec⟩, fun p => rfl⟩

theorem stuck_run :
    ∀ (evs : List Ev) (s : State), Stuck s → NoDestroy evs →
      ∀ p, settleCount (run s evs).2 p = 0 := by
  intro evs
  induction evs with
  | nil => intro s _ _ p; rfl
  | cons e evs ih =>
      intro s hst hnd p
      have hne : e ≠ Ev.destroy := by
        intro he
        subst he
        exact hnd (List.mem_cons_self _ _)
      have hnd' : NoDestroy evs := fun hmem =>
        hnd (List.mem_cons_of_mem e hmem)
      obtain ⟨hst', hzero⟩ := stuck_step s e hst hne
      rw [run_cons]
      show settleCount ((step s e).2 ++ (run (step s e).1 evs).2) p = 0
      rw [settleCount_append, hzero p, ih _ hst' hnd' p]

/-- Formalisation of claim C1's "never neither" reading at the concrete trace
`connect(); disconnect()`: some destroy-free continuation settles the promise
with id 0 that was pending when `disconnect()` ran. -/
def PendingSettledLater : Prop :=
  ∃ evs, NoDestroy evs ∧
    0 < settleCount
        (exec demoAddr ⟨false, 100⟩ (Ev.connect :: Ev.disconnect :: evs)).2 0

/-- C1 counterexample: after `connect()` immediately followed by
`disconnect()` the pending promise (id 0) still exists — `disconnect` neither
settles nor clears `_pending` — and no destroy-free continuation of the trace
ever settles it, so it is left forever unsettled, contradicting "settles
exactly once … never neither" and in particular the requirement on
`disconnect()`. -/
theorem pending_after_disconnect_never_settles :
    (exec demoAddr ⟨false, 100⟩ [Ev.connect, Ev.disconnect]).1.pending = some 0 ∧
    ¬PendingSettledLater := by
  constructor
  · rfl
  · rintro ⟨evs, hnd, hpos⟩
    have hstuck : Stuck (exec demoAddr ⟨false, 100⟩
        [Ev.connect, Ev.disconnect]).1 := ⟨rfl, rfl, rfl, by decide⟩
    have hsplit :
        (exec demoAddr ⟨false, 100⟩ (Ev.connect :: Ev.disconnect :: evs)).2
          = (exec demoAddr ⟨false, 100⟩ [Ev.connect, Ev.disconnect]).2 ++
            (run (exec demoAddr ⟨false, 100⟩
              [Ev.connect, Ev.disconnect]).1 evs).2 := by
      show (construct demoAddr ⟨false, 100⟩).2 ++
          (run (construct demoAddr ⟨false, 100⟩).1
            ([Ev.connect, Ev.disconnect] ++ evs)).2 = _
      rw [run_append]
      exact (List.append_assoc _ _ _).symm
    rw [hsplit, settleCount_append] at hpos
    have hpre : settleCount
        (exec demoAddr ⟨false, 100⟩ [Ev.connect, Ev.disconnect]).2 0 = 0 := rfl
    have hsuf := stuck_run evs _ hstuck hnd 0
    omega

end Clibri
